import Mathlib

/-!
Shallow embedding of the ROXAF V3.0.4 matching engine
(src/ROXAF_V3.0.4.py) in Lean 4.

A pandas DataFrame is modelled as a `Table`: an ordered list of column
names together with rows, each row an ordered list of cell `Value`s
(text, number, or missing/NaN).  Numbers are modelled as rationals.
The four core functions of the source are embedded as executable Lean
functions; pandas/Python failure behaviour (a function returning `None`
after `st.error`, or an exception caught by the surrounding
`try/except`) is modelled by `Option`/`Except` results.
-/

/-- A cell of a DataFrame: a string, a number (rationals model the
numeric values), or missing (NaN). -/
inductive Value where
  | str (s : String)
  | num (q : ℚ)
  | missing
deriving DecidableEq, Repr

/-- A DataFrame: named columns and rows of cells.  A row is matched to
columns positionally; a too-short row reads as `missing`. -/
structure Table where
  cols : List String
  rows : List (List Value)
deriving DecidableEq, Repr

def Value.isStr : Value → Bool
  | .str _ => true
  | _ => false

def Value.isNum : Value → Bool
  | .num _ => true
  | _ => false

/-- The numeric content of a cell, when it is a number. -/
def Value.toQ : Value → Option ℚ
  | .num q => some q
  | _ => none

/-- ASCII lowering of a string to a character list (models Python
`str.lower()` on the ASCII names used by the program). -/
def lowerL (s : String) : List Char := s.data.map Char.toLower

/-- `isPrefixL n h` : the character list `n` is a prefix of `h`. -/
def isPrefixL : List Char → List Char → Bool
  | [], _ => true
  | _ :: _, [] => false
  | a :: as, b :: bs => a == b && isPrefixL as bs

/-- `isInfixL n h` : the character list `n` occurs contiguously in `h`
(Python's `n in h` on strings). -/
def isInfixL (ndl : List Char) : List Char → Bool
  | [] => ndl.isEmpty
  | b :: bs => isPrefixL ndl (b :: bs) || isInfixL ndl bs

/-- `keyword.lower() in col.lower()` of the source. -/
def containsCI (col kw : String) : Bool := isInfixL (lowerL kw) (lowerL col)

/-- Source, `find_matching_column` (lines 17-23): scan the columns in
order; return the first whose lowered name contains the lowered form of
any keyword; `None` when no column matches. -/
def find_matching_column : List String → List String → Option String
  | [], _ => none
  | col :: rest, keywords =>
    if keywords.any (fun kw => containsCI col kw) then some col
    else find_matching_column rest keywords

/-- Keyword list for the client role (source line 28). -/
def clientKeywords : List String := ["client", "customer", "name"]

/-- Keyword list for the item-family role (source lines 29, 60). -/
def familyKeywords : List String := ["item family", "family", "item"]

/-- Keyword list for the weight (grammage) role (source lines 30, 61). -/
def grammageKeywords : List String := ["grammage", "weight", "gsm"]

/-- Keyword list for the width (laize) role (source lines 31, 62). -/
def laizeKeywords : List String := ["laize", "width", "size"]

/-- Keyword list for the priority role (source line 96). -/
def priorityKeywords : List String := ["priority", "urgency", "importance"]

/-- Index of a column name in the column list (first occurrence;
pandas label lookup). -/
def colIdx (cols : List String) (c : String) : Nat := cols.findIdx (· == c)

/-- Read the cell of `row` for the column at index `i`. -/
def cell (row : List Value) (i : Nat) : Value := row.getD i Value.missing

/-! ## Numeric coercion (`pd.to_numeric(..., errors="coerce")`) -/

/-- Decimal value of an ASCII digit. -/
def digitVal (c : Char) : Option Nat :=
  if c.isDigit then some (c.toNat - 48) else none

/-- Read a digit string as a natural number; `none` on a non-digit.
The empty list reads as `0` (callers rule out the fully-empty case). -/
def digitsToNat : List Char → Option Nat
  | [] => some 0
  | c :: cs =>
    match digitVal c, digitsToNat cs with
    | some d, some n => some (d * 10 ^ cs.length + n)
    | _, _ => none

/-- Split an optional leading sign; `true` means negative. -/
def splitSign : List Char → Bool × List Char
  | [] => (false, [])
  | c :: cs =>
    if c == '-' then (true, cs)
    else if c == '+' then (false, cs)
    else (false, c :: cs)

/-- Parse a decimal literal (optional sign, integer part, optional `.`
and fraction part) as a rational.  Models the number forms
`pd.to_numeric` accepts on the string data this program coerces;
exponent forms and surrounding whitespace are not modelled. -/
def parseDec (s : String) : Option ℚ :=
  let (neg, body) := splitSign s.data
  let ip := body.takeWhile (fun c => c != '.')
  let rest := body.drop ip.length
  let core : Option ℚ :=
    match rest with
    | [] =>
      if ip.isEmpty then none
      else (digitsToNat ip).map (fun n => (n : ℚ))
    | _ :: fp =>
      if ip.isEmpty && fp.isEmpty then none
      else
        match digitsToNat ip, digitsToNat fp with
        | some n, some f => some ((n : ℚ) + (f : ℚ) / (10 : ℚ) ^ fp.length)
        | _, _ => none
  core.map (fun q => if neg then -q else q)

/-- `pd.to_numeric(v, errors="coerce")` on one cell: numbers pass
through, numeric text parses, anything else becomes missing (NaN). -/
def toNumericV : Value → Value
  | .num q => .num q
  | .str s =>
    match parseDec s with
    | some q => .num q
    | none => .missing
  | .missing => .missing

/-! ## Element-wise pandas comparisons -/

/-- Element-wise pandas `==` between a cell and a comparison value:
exact equality within a type, `False` across types, and NaN compares
unequal to everything including itself. -/
def pyEq : Value → Value → Bool
  | .str a, .str b => a == b
  | .num a, .num b => a == b
  | _, _ => false

/-- Element-wise pandas `<=`: number/number and string/string compare;
NaN against a number or NaN is `False`; a string against a number or
NaN raises `TypeError`, modelled as `none`. -/
def cmpLe : Value → Value → Option Bool
  | .num a, .num b => some (decide (a ≤ b))
  | .str a, .str b => some (decide (a ≤ b))
  | .missing, .num _ => some false
  | .num _, .missing => some false
  | .missing, .missing => some false
  | _, _ => none

/-- `Series.between(lo, hi)` on one cell: `lo <= v AND v <= hi`, both
bounds inclusive; a `TypeError` in either comparison propagates. -/
def betweenV (v lo hi : Value) : Option Bool := do
  let a ← cmpLe lo v
  let b ← cmpLe v hi
  pure (a && b)

/-- Filter with a fallible predicate: a raised `TypeError` anywhere in
the column comparison fails the whole selection (pandas evaluates the
comparison over every row before masking). -/
def pyFilter (p : α → Option Bool) : List α → Option (List α)
  | [] => some []
  | x :: xs =>
    match p x, pyFilter p xs with
    | some true, some ys => some (x :: ys)
    | some false, some ys => some ys
    | _, _ => none

/-- Map with a fallible function, failing the whole list on the first
failure (the body of a Python `for` loop that can raise). -/
def mapO (f : α → Option β) : List α → Option (List β)
  | [] => some []
  | x :: xs =>
    match f x, mapO f xs with
    | some y, some ys => some (y :: ys)
    | _, _ => none

/-! ## Grouping helpers -/

/-- First-seen-order deduplication, the order `Series.unique()` and the
group structure of `groupby` expose.  (`groupby` sorts group keys by
default; none of the properties below depend on the emission order, so
the embedding keeps first-seen order.) -/
def firstSeenAux [DecidableEq α] (seen : List α) : List α → List α
  | [] => []
  | v :: vs =>
    if v ∈ seen then firstSeenAux seen vs
    else v :: firstSeenAux (v :: seen) vs

def firstSeen [DecidableEq α] (l : List α) : List α := firstSeenAux [] l

/-- Minimum of a list of rationals (`none` on the empty list). -/
def qMin : List ℚ → Option ℚ
  | [] => none
  | x :: xs => some (xs.foldl min x)

/-- Maximum of a list of rationals (`none` on the empty list). -/
def qMax : List ℚ → Option ℚ
  | [] => none
  | x :: xs => some (xs.foldl max x)

/-! ## Need Aggregator: `group_client_needs_by_item_family` (lines 25-55) -/

/-- Failure kinds of the aggregator, mirroring its two distinct
`st.error` messages before the `return None`. -/
inductive AggError where
  | requiredColumnsNotFound
  | noNeedsFound
deriving DecidableEq, Repr

/-- Lines 42-43 on one row: overwrite the grammage entry with its
coerced value, then the laize entry (the second assignment sees the
first one's effect, which matters only when the two roles resolved to
the same column). -/
def coerceRow (gi li : Nat) (r : List Value) : List Value :=
  let r1 := r.set gi (toNumericV (cell r gi))
  r1.set li (toNumericV (cell r1 li))

/-- `dropna(subset=[grammage_col, laize_col])` of line 44: keep the
rows whose coerced grammage and laize entries are numbers. -/
def dropnaRows (gi li : Nat) (rows : List (List Value)) : List (List Value) :=
  rows.filter (fun r => (cell r gi).isNum && (cell r li).isNum)

/-- `groupby(item_family_col).agg(min, max).reset_index()` of lines
46-49 on the cleaned rows: one output row per distinct item-family
value (NaN keys are dropped, as `groupby` does), holding the family
and the min and max of the grammage and of the laize entries of its
group. -/
def groupOf (fi : Nat) (cleaned : List (List Value)) (fam : Value) :
    List (List Value) :=
  cleaned.filter (fun r => cell r fi = fam)

/-- The `agg` row of one group: family, then min and max of grammage,
then min and max of laize over the group's rows. -/
def aggRowFor (fi gi li : Nat) (cleaned : List (List Value)) (fam : Value) :
    Option (List Value) :=
  match qMin ((groupOf fi cleaned fam).filterMap (fun r => (cell r gi).toQ)),
        qMax ((groupOf fi cleaned fam).filterMap (fun r => (cell r gi).toQ)),
        qMin ((groupOf fi cleaned fam).filterMap (fun r => (cell r li).toQ)),
        qMax ((groupOf fi cleaned fam).filterMap (fun r => (cell r li).toQ)) with
  | some a, some b, some c, some d =>
    some [fam, Value.num a, Value.num b, Value.num c, Value.num d]
  | _, _, _, _ => none

def aggGroupedRows (fi gi li : Nat) (cleaned : List (List Value)) :
    List (List Value) :=
  (firstSeen
    ((cleaned.map (fun r => cell r fi)).filter
      (fun v => v ≠ Value.missing))).filterMap (aggRowFor fi gi li cleaned)

/-- The renamed flattened `agg` column names of line 51. -/
def groupedColNames (fcol gcol lcol : String) : List String :=
  [fcol, gcol ++ " min", gcol ++ " max", lcol ++ " min", lcol ++ " max"]

/-- Source, `group_client_needs_by_item_family`: resolve the client,
item-family, grammage and laize columns; keep the rows whose client
cell equals `clientName` (pandas element-wise `==`); coerce the
grammage then the laize column to numbers on the copied selection; drop
rows with a missing coerced value; group by the item-family value and
take min and max of the two coerced columns per group. -/
def selectedRows (df : Table) (ci : Nat) (clientName : Value) :
    List (List Value) :=
  df.rows.filter (fun r => pyEq (cell r ci) clientName)

def group_client_needs_by_item_family (df : Table) (clientName : Value) :
    Except AggError Table :=
  match find_matching_column df.cols clientKeywords,
        find_matching_column df.cols familyKeywords,
        find_matching_column df.cols grammageKeywords,
        find_matching_column df.cols laizeKeywords with
  | some ccol, some fcol, some gcol, some lcol =>
    if (selectedRows df (colIdx df.cols ccol) clientName).isEmpty then
      .error .noNeedsFound
    else
      .ok ⟨groupedColNames fcol gcol lcol,
           aggGroupedRows (colIdx df.cols fcol) (colIdx df.cols gcol)
             (colIdx df.cols lcol)
             (dropnaRows (colIdx df.cols gcol) (colIdx df.cols lcol)
               ((selectedRows df (colIdx df.cols ccol) clientName).map
                 (coerceRow (colIdx df.cols gcol) (colIdx df.cols lcol))))⟩
  | _, _, _, _ => .error .requiredColumnsNotFound

/-! ## Range Matcher: `filter_stocklot_for_client` (lines 57-91) -/

/-- Find the first column of the tolerance table whose lowered name
contains the given lowered literal (`'grammage min' in col.lower()`,
lines 70-73); the `[0]` indexing raises on no match, modelled `none`. -/
def findBoundCol (cols : List String) (lit : String) : Option String :=
  cols.find? (fun col => containsCI col lit)

/-- The combined row mask of lines 81-85 on one stocklot row: family
equality AND grammage between AND laize between. -/
def keepRow (fi gi li : Nat) (itemFamily minG maxG minL maxL : Value)
    (r : List Value) : Option Bool :=
  match betweenV (cell r gi) minG maxG, betweenV (cell r li) minL maxL with
  | some bg, some bl => some (pyEq (cell r fi) itemFamily && bg && bl)
  | _, _ => none

/-- One iteration of the loop of lines 69-86: read the family and the
four bounds from one tolerance row and select the stocklot rows whose
family equals it and whose grammage and laize lie between the bounds
(pandas `between`, bounds inclusive).  Any failed lookup or a
`TypeError` in a comparison fails the operation. -/
def selectForRow (dfStocklot : Table) (fi gi li : Nat)
    (gCols : List String) (nrow : List Value) :
    Option (List (List Value)) :=
  match gCols.head?,
        findBoundCol gCols "grammage min", findBoundCol gCols "grammage max",
        findBoundCol gCols "laize min", findBoundCol gCols "laize max" with
  | some famCol, some gminC, some gmaxC, some lminC, some lmaxC =>
    pyFilter (keepRow fi gi li (cell nrow (colIdx gCols famCol))
        (cell nrow (colIdx gCols gminC)) (cell nrow (colIdx gCols gmaxC))
        (cell nrow (colIdx gCols lminC)) (cell nrow (colIdx gCols lmaxC)))
      dfStocklot.rows
  | _, _, _, _, _ => none

/-- Source, `filter_stocklot_for_client`: resolve the three stocklot
columns; run `selectForRow` for each tolerance row; concatenate the
selections in tolerance-row order (`pd.concat(..., ignore_index=True)`).
With zero tolerance rows `filtered_results` is empty and the function
returns `None` (line 88); every error path also returns `None`. -/
def filter_stocklot_for_client (dfStocklot groupedNeeds : Table) :
    Option Table :=
  match find_matching_column dfStocklot.cols familyKeywords,
        find_matching_column dfStocklot.cols grammageKeywords,
        find_matching_column dfStocklot.cols laizeKeywords with
  | some fcol, some gcol, some lcol =>
    if groupedNeeds.rows.isEmpty then none
    else
      (mapO (selectForRow dfStocklot (colIdx dfStocklot.cols fcol)
          (colIdx dfStocklot.cols gcol) (colIdx dfStocklot.cols lcol)
          groupedNeeds.cols) groupedNeeds.rows).map
        (fun parts => ⟨dfStocklot.cols, parts.flatten⟩)
  | _, _, _ => none

/-! ## Priority Classifier: `classify_needs_by_priority` (lines 93-114) -/

/-- The four bucket tables, in the dictionary order of lines 106-111. -/
structure Buckets where
  urgent : Table
  lessUrgent : Table
  lastPriority : Table
  general : Table
deriving DecidableEq, Repr

/-- `df[col].str.lower().str.contains(pat)` on one cell whose value is
a string. -/
def priorityHas (pi : Nat) (pat : String) (r : List Value) : Bool :=
  match cell r pi with
  | .str s => isInfixL pat.data (lowerL s)
  | _ => false

/-- Source, `classify_needs_by_priority`: resolve the priority column;
build the four filtered tables.  `.str.lower()` yields NaN on a
non-string cell and the boolean mask then raises, caught as `None`:
hence the all-strings guard.  The `general` mask is the negation of the
regex alternation of line 104. -/
def classify_needs_by_priority (df : Table) : Option Buckets :=
  match find_matching_column df.cols priorityKeywords with
  | none => none
  | some pcol =>
    if df.rows.all (fun r => (cell r (colIdx df.cols pcol)).isStr) then
      some ⟨⟨df.cols, df.rows.filter (priorityHas (colIdx df.cols pcol) "urgent")⟩,
            ⟨df.cols,
             df.rows.filter (priorityHas (colIdx df.cols pcol) "less urgent")⟩,
            ⟨df.cols,
             df.rows.filter (priorityHas (colIdx df.cols pcol) "last priority")⟩,
            ⟨df.cols, df.rows.filter (fun r =>
              !(priorityHas (colIdx df.cols pcol) "urgent" r ||
                priorityHas (colIdx df.cols pcol) "less urgent" r ||
                priorityHas (colIdx df.cols pcol) "last priority" r))⟩⟩
    else none

/-! ## Batch Orchestrator (`main`, Auto Filter branch, lines 174-218) -/

/-- The bucket tables with their labels, in the iteration order of the
dictionary returned at lines 106-111. -/
def bucketList (b : Buckets) : List (String × Table) :=
  [("Urgent", b.urgent), ("Less Urgent", b.lessUrgent),
   ("Last Priority", b.lastPriority), ("General", b.general)]

/-- The single-client pipeline (Manual Filter branch, lines 150-154,
and the body of the Auto Filter loop, lines 192-198): aggregate the
client's needs from the full requirements table, then filter the
stocklot. -/
def singleClientMatch (dfStocklot dfClientNeeds : Table) (clientName : Value) :
    Option Table :=
  match group_client_needs_by_item_family dfClientNeeds clientName with
  | .error _ => none
  | .ok groupedNeeds => filter_stocklot_for_client dfStocklot groupedNeeds

/-- `needs_df[client_col].unique()` (line 190): the distinct values of
the client column of a bucket table, in first-seen order. -/
def uniqueClients (bdf : Table) (ci : Nat) : List Value :=
  firstSeen (bdf.rows.map (fun r => cell r ci))

/-- The Auto Filter loop body for one client of one bucket (lines
191-203): aggregation runs over the FULL requirements table
`df_client_needs`, not the bucket's subset; an aggregation failure or
an empty (or failed) match is skipped, otherwise the filtered table is
recorded under the client name and the bucket label. -/
def processClient (dfStocklot dfClientNeeds : Table) (label : String)
    (c : Value) : Option (Value × String × Table) :=
  match singleClientMatch dfStocklot dfClientNeeds c with
  | none => none
  | some t => if t.rows.isEmpty then none else some (c, label, t)

/-- Source, Auto Filter branch (lines 174-218): classify the
requirements by priority; resolve the client column (its absence
aborts with nothing accumulated); for each bucket in dictionary order
and each distinct client of that bucket in first-seen order, run the
single-client pipeline and accumulate the non-empty results tagged
`(client, bucket label)`. -/
def autoFilterOutputs (dfStocklot dfClientNeeds : Table) :
    Option (List (Value × String × Table)) :=
  match classify_needs_by_priority dfClientNeeds with
  | none => none
  | some buckets =>
    match find_matching_column dfClientNeeds.cols clientKeywords with
    | none => none
    | some ccol =>
      some ((bucketList buckets).map (fun lb =>
        (uniqueClients lb.2 (colIdx dfClientNeeds.cols ccol)).filterMap
          (processClient dfStocklot dfClientNeeds lb.1))).flatten

/-! ## Reference-and-store view of the DataFrames

The Python DataFrames are heap objects handled by reference.  To make
the frame property (the caller's tables are never mutated by a core
call) expressible, the core operations are replayed over an explicit
store of tables: `.copy()` allocates, the two `.loc[:, col] = ...`
assignments of lines 42-43 write in place to the named reference, and
row selections, `dropna`, `groupby` and `pd.concat` build fresh
frames. -/

def emptyTable : Table := ⟨[], []⟩

/-- The heap of allocated DataFrames; a reference is an index. -/
structure Store where
  tables : List Table
deriving DecidableEq, Repr

/-- Dereference (an unallocated reference reads as an empty table). -/
def readT (s : Store) (r : Nat) : Table := s.tables.getD r emptyTable

/-- Allocate a fresh DataFrame, returning its reference. -/
def allocT (s : Store) (t : Table) : Store × Nat :=
  (⟨s.tables ++ [t]⟩, s.tables.length)

/-- Overwrite the DataFrame behind a reference (an in-place update). -/
def writeT (s : Store) (r : Nat) (t : Table) : Store := ⟨s.tables.set r t⟩

/-- `group_client_needs_by_item_family` over the store: the selection
of line 37 is `.copy()`-ed into a fresh reference, the coercions of
lines 42-43 mutate that fresh reference in place, and the grouped
result is a fresh allocation.  The caller's `df_client_needs` reference
is only read. -/
def group_client_needs_st (s : Store) (dfRef : Nat) (clientName : Value) :
    Store × Except AggError Nat :=
  let df := readT s dfRef
  match find_matching_column df.cols clientKeywords,
        find_matching_column df.cols familyKeywords,
        find_matching_column df.cols grammageKeywords,
        find_matching_column df.cols laizeKeywords with
  | some ccol, some fcol, some gcol, some lcol =>
    let ci := colIdx df.cols ccol
    let fi := colIdx df.cols fcol
    let gi := colIdx df.cols gcol
    let li := colIdx df.cols lcol
    let selected := df.rows.filter (fun r => pyEq (cell r ci) clientName)
    if selected.isEmpty then (s, .error .noNeedsFound)
    else
      let copy1 := allocT s ⟨df.cols, selected⟩
      let t1 := readT copy1.1 copy1.2
      let s2 := writeT copy1.1 copy1.2
        ⟨t1.cols, t1.rows.map (fun r => r.set gi (toNumericV (cell r gi)))⟩
      let t2 := readT s2 copy1.2
      let s3 := writeT s2 copy1.2
        ⟨t2.cols, t2.rows.map (fun r => r.set li (toNumericV (cell r li)))⟩
      let t3 := readT s3 copy1.2
      let grouped := allocT s3
        ⟨groupedColNames fcol gcol lcol,
         aggGroupedRows fi gi li (dropnaRows gi li t3.rows)⟩
      (grouped.1, .ok grouped.2)
  | _, _, _, _ => (s, .error .requiredColumnsNotFound)

/-- `filter_stocklot_for_client` over the store: both input references
are only read; the concatenated result is a fresh allocation. -/
def filter_stocklot_for_client_st (s : Store) (stRef gnRef : Nat) :
    Store × Option Nat :=
  match filter_stocklot_for_client (readT s stRef) (readT s gnRef) with
  | none => (s, none)
  | some t =>
    let p := allocT s t
    (p.1, some p.2)

/-- `classify_needs_by_priority` over the store: the input reference is
only read; the four bucket tables are fresh allocations. -/
def classify_needs_by_priority_st (s : Store) (dfRef : Nat) :
    Store × Option (Nat × Nat × Nat × Nat) :=
  match classify_needs_by_priority (readT s dfRef) with
  | none => (s, none)
  | some b =>
    let p1 := allocT s b.urgent
    let p2 := allocT p1.1 b.lessUrgent
    let p3 := allocT p2.1 b.lastPriority
    let p4 := allocT p3.1 b.general
    (p4.1, some (p1.2, p2.2, p3.2, p4.2))

/-! ## Concrete tables for the documented scenarios -/

/-- The scenario inventory: two Kraft lots, weights 80 and 200, both
width 100 (column names instantiating the family, weight and width
roles of the data model). -/
def invScenario : Table :=
  ⟨["Item Family", "Grammage", "Laize"],
   [[.str "Kraft", .num 80, .num 100],
    [.str "Kraft", .num 200, .num 100]]⟩

/-- The scenario requirements of client Acme: weights "75" and "90",
widths "90" and "110", as strings. -/
def reqScenario : Table :=
  ⟨["Client", "Item Family", "Grammage", "Laize"],
   [[.str "Acme", .str "Kraft", .str "75", .str "90"],
    [.str "Acme", .str "Kraft", .str "90", .str "110"]]⟩

/-- The aggregated tolerance range the scenario documents:
family Kraft, weight in [75, 90], width in [90, 110]. -/
def groupedScenario : Table :=
  ⟨["Item Family", "Grammage min", "Grammage max", "Laize min", "Laize max"],
   [[.str "Kraft", .num 75, .num 90, .num 90, .num 110]]⟩

deriving instance DecidableEq for Except

/-- A requirements table with an ambiguous priority text containing
both "less urgent" and "last priority". -/
def tAmbig : Table :=
  ⟨["Priority"], [[.str "less urgent last priority"]]⟩

/-- A requirements table with the documented "less urgent - reorder"
priority text. -/
def tReorder : Table :=
  ⟨["Priority"], [[.str "less urgent - reorder"]]⟩

/-- A requirements table whose priority texts overlap every pair of
the Urgent, LessUrgent and LastPriority buckets. -/
def tOverlap : Table :=
  ⟨["Priority"],
   [[.str "less urgent"],
    [.str "urgent last priority"],
    [.str "less urgent last priority"]]⟩

/-- An inventory with a textual (non-numeric) grammage cell. -/
def invBad : Table :=
  ⟨["Item Family", "Grammage", "Laize"],
   [[.str "Other", .str "N/A", .num 100],
    [.str "Kraft", .num 80, .num 100]]⟩

/-- The scenario requirements extended with a priority column whose
two rows put client Acme into both Urgent and Less Urgent buckets. -/
def reqPrio : Table :=
  ⟨["Client", "Item Family", "Grammage", "Laize", "Priority"],
   [[.str "Acme", .str "Kraft", .str "75", .str "90", .str "less urgent"],
    [.str "Acme", .str "Kraft", .str "90", .str "110", .str "urgent"]]⟩

/-- A tolerance table with the scenario column names and no rows. -/
def gnEmpty : Table :=
  ⟨["Item Family", "Grammage min", "Grammage max", "Laize min", "Laize max"], []⟩

/-- A tolerance table whose single range matches no scenario lot
(family "Zed" does not occur in the inventory). -/
def gnNoMatch : Table :=
  ⟨["Item Family", "Grammage min", "Grammage max", "Laize min", "Laize max"],
   [[.str "Zed", .num 1, .num 2, .num 1, .num 2]]⟩

/-- A store holding the two caller tables of the scenario. -/
def storeScenario : Store := ⟨[invScenario, reqScenario]⟩

/-! ## Substring search facts -/

theorem isPrefixL_iff : ∀ (n h : List Char), isPrefixL n h = true ↔ n <+: h
  | [], h => by simp [isPrefixL]
  | a :: as, [] => by simp [isPrefixL]
  | a :: as, b :: bs => by
    simp only [isPrefixL, Bool.and_eq_true, beq_iff_eq, List.cons_prefix_cons]
    exact and_congr Iff.rfl (isPrefixL_iff as bs)

theorem isInfixL_iff : ∀ (n h : List Char), isInfixL n h = true ↔ n <:+: h
  | n, [] => by simp [isInfixL, List.isEmpty_iff, List.infix_nil]
  | n, b :: bs => by
    simp only [isInfixL, Bool.or_eq_true]
    rw [isPrefixL_iff, isInfixL_iff n bs]
    exact List.infix_cons_iff.symm

theorem containsCI_iff (col kw : String) :
    containsCI col kw = true ↔ lowerL kw <:+: lowerL col :=
  isInfixL_iff (lowerL kw) (lowerL col)

theorem anyKw_iff (c : String) (kws : List String) :
    (kws.any (fun kw => containsCI c kw)) = true ↔
      ∃ kw ∈ kws, lowerL kw <:+: lowerL c := by
  simp [List.any_eq_true, containsCI_iff]

/-! ## Characterization of `find_matching_column` -/

theorem find_matching_column_eq_none_iff :
    ∀ (cols kws : List String),
      find_matching_column cols kws = none ↔
        ∀ c ∈ cols, ∀ kw ∈ kws, ¬ lowerL kw <:+: lowerL c
  | [], kws => by simp [find_matching_column]
  | col :: rest, kws => by
    simp only [find_matching_column]
    by_cases hm : (kws.any (fun kw => containsCI col kw)) = true
    · simp only [hm, if_true]
      constructor
      · intro h; exact absurd h (by simp)
      · intro h
        rcases (anyKw_iff col kws).mp hm with ⟨kw, hkw, hin⟩
        exact absurd hin (h col (by simp) kw hkw)
    · rw [if_neg hm, find_matching_column_eq_none_iff rest kws]
      constructor
      · intro h c hc kw hkw
        rcases List.mem_cons.mp hc with rfl | hc2
        · intro hin; exact hm ((anyKw_iff c kws).mpr ⟨kw, hkw, hin⟩)
        · exact h c hc2 kw hkw
      · intro h c hc kw hkw
        exact h c (List.mem_cons_of_mem _ hc) kw hkw

theorem find_matching_column_eq_some_iff :
    ∀ (cols kws : List String) (c : String),
      find_matching_column cols kws = some c ↔
        ∃ pre post, cols = pre ++ c :: post ∧
          (∃ kw ∈ kws, lowerL kw <:+: lowerL c) ∧
          ∀ c2 ∈ pre, ∀ kw ∈ kws, ¬ lowerL kw <:+: lowerL c2
  | [], kws, c => by
    simp only [find_matching_column]
    constructor
    · intro h; exact absurd h (by simp)
    · rintro ⟨pre, post, h, -, -⟩
      exact absurd h.symm (List.append_ne_nil_of_right_ne_nil pre (by simp))
  | col :: rest, kws, c => by
    simp only [find_matching_column]
    by_cases hm : (kws.any (fun kw => containsCI col kw)) = true
    · rw [if_pos hm]
      constructor
      · intro h
        obtain rfl : col = c := by simpa using h
        exact ⟨[], rest, rfl, (anyKw_iff col kws).mp hm, by simp⟩
      · rintro ⟨pre, post, hcols, -, hpre⟩
        cases pre with
        | nil =>
          simp only [List.nil_append, List.cons.injEq] at hcols
          simp [hcols.1]
        | cons p pre2 =>
          simp only [List.cons_append, List.cons.injEq] at hcols
          rcases (anyKw_iff col kws).mp hm with ⟨kw, hkw, hin⟩
          exact absurd hin (hcols.1 ▸ hpre p (by simp) kw hkw)
    · rw [if_neg hm, find_matching_column_eq_some_iff rest kws c]
      constructor
      · rintro ⟨pre, post, hcols, hc, hpre⟩
        refine ⟨col :: pre, post, by simp [hcols], hc, ?_⟩
        intro c2 hc2 kw hkw
        rcases List.mem_cons.mp hc2 with rfl | hc3
        · intro hin; exact hm ((anyKw_iff c2 kws).mpr ⟨kw, hkw, hin⟩)
        · exact hpre c2 hc3 kw hkw
      · rintro ⟨pre, post, hcols, hc, hpre⟩
        cases pre with
        | nil =>
          simp only [List.nil_append, List.cons.injEq] at hcols
          rcases hc with ⟨kw, hkw, hin⟩
          exact absurd ((anyKw_iff col kws).mpr ⟨kw, hkw, hcols.1 ▸ hin⟩) hm
        | cons p pre2 =>
          simp only [List.cons_append, List.cons.injEq] at hcols
          exact ⟨pre2, post, hcols.2, hc, fun c2 h2 kw hkw =>
            hpre c2 (List.mem_cons_of_mem _ h2) kw hkw⟩

/-- C3: for every sequence of column names and ordered keyword list, the
schema resolver returns the first column in the given column order whose
lowered name contains some lowered keyword as a substring, and returns
absent exactly when no column contains any keyword; and the keyword
lists per role are client: client/customer/name, item_family:
item family/family/item, weight_attr: grammage/weight/gsm, width_attr:
laize/width/size, priority: priority/urgency/importance. -/
theorem claim_C3_schema_resolver :
    (∀ (cols kws : List String) (c : String),
        find_matching_column cols kws = some c ↔
          ∃ pre post, cols = pre ++ c :: post ∧
            (∃ kw ∈ kws, lowerL kw <:+: lowerL c) ∧
            ∀ c2 ∈ pre, ∀ kw ∈ kws, ¬ lowerL kw <:+: lowerL c2) ∧
    (∀ cols kws : List String,
        find_matching_column cols kws = none ↔
          ∀ c ∈ cols, ∀ kw ∈ kws, ¬ lowerL kw <:+: lowerL c) ∧
    clientKeywords = ["client", "customer", "name"] ∧
    familyKeywords = ["item family", "family", "item"] ∧
    grammageKeywords = ["grammage", "weight", "gsm"] ∧
    laizeKeywords = ["laize", "width", "size"] ∧
    priorityKeywords = ["priority", "urgency", "importance"] :=
  ⟨find_matching_column_eq_some_iff, find_matching_column_eq_none_iff,
   rfl, rfl, rfl, rfl, rfl⟩

/-- Witness for C3 at a concrete table: among columns Qty and
Client Name, the client role resolves to Client Name. -/
theorem claim_C3_schema_resolver_witness :
    find_matching_column ["Qty", "Client Name"] clientKeywords =
      some "Client Name" :=
  (claim_C3_schema_resolver.1 ["Qty", "Client Name"] clientKeywords
      "Client Name").mpr
    ⟨["Qty"], [], rfl, ⟨"client", by decide, by decide⟩, by decide⟩

/-! ## Facts about the element-wise comparisons -/

theorem pyEq_str_iff (v : Value) (s : String) :
    pyEq v (.str s) = true ↔ v = .str s := by
  cases v <;> simp [pyEq]

theorem pyEq_same (v a b : Value) (ha : pyEq v a = true) (hb : pyEq v b = true) :
    a = b := by
  cases v <;> cases a <;> cases b <;> simp_all [pyEq]

/-! ## Facts about the fallible filter and map -/

theorem pyFilter_mem {p : α → Option Bool} :
    ∀ {l ys : List α}, pyFilter p l = some ys → ∀ y ∈ ys, p y = some true
  | [], ys, h => by
    simp only [pyFilter, Option.some.injEq] at h
    subst h; intro y hy; cases hy
  | x :: xs, ys, h => by
    simp only [pyFilter] at h
    rcases hx : p x with - | b
    · rw [hx] at h; cases h
    · rw [hx] at h
      rcases hrec : pyFilter p xs with - | zs
      · rw [hrec] at h; cases b <;> cases h
      · rw [hrec] at h
        cases b with
        | false =>
          simp only [Option.some.injEq] at h
          subst h; exact pyFilter_mem hrec
        | true =>
          simp only [Option.some.injEq] at h
          subst h
          intro y hy
          rcases List.mem_cons.mp hy with rfl | hy2
          · exact hx
          · exact pyFilter_mem hrec y hy2

theorem pyFilter_sublist {p : α → Option Bool} :
    ∀ {l ys : List α}, pyFilter p l = some ys → ys.Sublist l
  | [], ys, h => by
    simp only [pyFilter, Option.some.injEq] at h
    subst h; exact List.Sublist.refl []
  | x :: xs, ys, h => by
    simp only [pyFilter] at h
    rcases hx : p x with - | b
    · rw [hx] at h; cases h
    · rw [hx] at h
      rcases hrec : pyFilter p xs with - | zs
      · rw [hrec] at h; cases b <;> cases h
      · rw [hrec] at h
        cases b with
        | false =>
          simp only [Option.some.injEq] at h
          subst h; exact (pyFilter_sublist hrec).cons x
        | true =>
          simp only [Option.some.injEq] at h
          subst h; exact (pyFilter_sublist hrec).cons₂ x

theorem pyFilter_none_of_mem {p : α → Option Bool} :
    ∀ {l : List α} {x : α}, x ∈ l → p x = none → pyFilter p l = none
  | [], x, hx, _ => by cases hx
  | y :: ys, x, hx, hp => by
    rcases List.mem_cons.mp hx with rfl | hx2
    · simp [pyFilter, hp]
    · simp only [pyFilter, pyFilter_none_of_mem hx2 hp]
      rcases p y with - | b
      · rfl
      · cases b <;> rfl

theorem mapO_mem {f : α → Option β} :
    ∀ {l : List α} {l2 : List β}, mapO f l = some l2 →
      ∀ y ∈ l2, ∃ x ∈ l, f x = some y
  | [], l2, h => by
    simp only [mapO, Option.some.injEq] at h
    subst h; intro y hy; cases hy
  | x :: xs, l2, h => by
    simp only [mapO] at h
    rcases hx : f x with - | z
    · rw [hx] at h; cases h
    · rw [hx] at h
      rcases hrec : mapO f xs with - | zs
      · rw [hrec] at h; cases h
      · rw [hrec] at h
        simp only [Option.some.injEq] at h
        subst h
        intro y hy
        rcases List.mem_cons.mp hy with rfl | hy2
        · exact ⟨x, by simp, hx⟩
        · rcases mapO_mem hrec y hy2 with ⟨w, hw, hfw⟩
          exact ⟨w, List.mem_cons_of_mem _ hw, hfw⟩

theorem mapO_none_of_mem {f : α → Option β} :
    ∀ {l : List α} {x : α}, x ∈ l → f x = none → mapO f l = none
  | [], x, hx, _ => by cases hx
  | y :: ys, x, hx, hf => by
    rcases List.mem_cons.mp hx with rfl | hx2
    · simp [mapO, hf]
    · simp only [mapO, mapO_none_of_mem hx2 hf]
      rcases f y with - | z <;> rfl

theorem mapO_pairwise {f : α → Option β} {R : α → α → Prop} {S : β → β → Prop} :
    ∀ {l : List α} {l2 : List β}, mapO f l = some l2 → List.Pairwise R l →
      (∀ a b pa pb, R a b → f a = some pa → f b = some pb → S pa pb) →
      List.Pairwise S l2
  | [], l2, h, _, _ => by
    simp only [mapO, Option.some.injEq] at h
    subst h; exact List.Pairwise.nil
  | x :: xs, l2, h, hR, hRS => by
    simp only [mapO] at h
    rcases hx : f x with - | z
    · rw [hx] at h; cases h
    · rw [hx] at h
      rcases hrec : mapO f xs with - | zs
      · rw [hrec] at h; cases h
      · rw [hrec] at h
        simp only [Option.some.injEq] at h
        subst h
        rcases List.pairwise_cons.mp hR with ⟨hhead, htail⟩
        refine List.Pairwise.cons ?_ (mapO_pairwise hrec htail hRS)
        intro q hq
        rcases mapO_mem hrec q hq with ⟨b, hb, hfb⟩
        exact hRS x b z q (hhead b hb) hx hfb

theorem filterMap_pairwise {f : α → Option β} {R : α → α → Prop}
    {S : β → β → Prop} :
    ∀ {l : List α}, List.Pairwise R l →
      (∀ a b pa pb, R a b → f a = some pa → f b = some pb → S pa pb) →
      List.Pairwise S (l.filterMap f)
  | [], _, _ => by simp
  | x :: xs, hR, hRS => by
    rcases List.pairwise_cons.mp hR with ⟨hhead, htail⟩
    rw [List.filterMap_cons]
    rcases hx : f x with - | z
    · exact filterMap_pairwise htail hRS
    · refine List.Pairwise.cons ?_ (filterMap_pairwise htail hRS)
      intro q hq
      rcases List.mem_filterMap.mp hq with ⟨b, hb, hfb⟩
      exact hRS x b z q (hhead b hb) hx hfb

/-! ## Facts about grouping -/

theorem firstSeenAux_not_mem_seen [DecidableEq α] :
    ∀ (l seen : List α) (v : α), v ∈ firstSeenAux seen l → v ∉ seen
  | [], _, v, hv => by cases hv
  | x :: xs, seen, v, hv => by
    simp only [firstSeenAux] at hv
    by_cases hx : x ∈ seen
    · rw [if_pos hx] at hv
      exact firstSeenAux_not_mem_seen xs seen v hv
    · rw [if_neg hx] at hv
      rcases List.mem_cons.mp hv with rfl | hv2
      · exact hx
      · have h2 := firstSeenAux_not_mem_seen xs (x :: seen) v hv2
        intro hmem
        exact h2 (List.mem_cons_of_mem x hmem)

theorem firstSeenAux_nodup [DecidableEq α] :
    ∀ (l seen : List α), (firstSeenAux seen l).Nodup
  | [], _ => List.nodup_nil
  | x :: xs, seen => by
    simp only [firstSeenAux]
    by_cases hx : x ∈ seen
    · rw [if_pos hx]; exact firstSeenAux_nodup xs seen
    · rw [if_neg hx]
      refine List.Nodup.cons ?_ (firstSeenAux_nodup xs (x :: seen))
      intro hmem
      exact firstSeenAux_not_mem_seen xs (x :: seen) x hmem
        (List.mem_cons_self x seen)

theorem firstSeen_nodup [DecidableEq α] (l : List α) : (firstSeen l).Nodup :=
  firstSeenAux_nodup l []

theorem foldl_min_le (xs : List ℚ) : ∀ x : ℚ, xs.foldl min x ≤ x := by
  induction xs with
  | nil => intro x; simp
  | cons y ys ih =>
    intro x
    calc (y :: ys).foldl min x = ys.foldl min (min x y) := by simp [List.foldl]
    _ ≤ min x y := ih (min x y)
    _ ≤ x := min_le_left x y

theorem le_foldl_max (xs : List ℚ) : ∀ x : ℚ, x ≤ xs.foldl max x := by
  induction xs with
  | nil => intro x; simp
  | cons y ys ih =>
    intro x
    calc x ≤ max x y := le_max_left x y
    _ ≤ ys.foldl max (max x y) := ih (max x y)
    _ = (y :: ys).foldl max x := by simp [List.foldl]

theorem qMin_le_qMax {xs : List ℚ} {a b : ℚ}
    (ha : qMin xs = some a) (hb : qMax xs = some b) : a ≤ b := by
  cases xs with
  | nil => cases ha
  | cons x rest =>
    simp only [qMin, Option.some.injEq] at ha
    simp only [qMax, Option.some.injEq] at hb
    subst ha; subst hb
    exact le_trans (foldl_min_le rest x) (le_foldl_max rest x)

/-- Each row the grouped aggregation emits is one family value followed
by four numbers, min before max for grammage and for laize. -/
theorem aggGroupedRows_mem {fi gi li : Nat} {cleaned : List (List Value)}
    {r : List Value} (h : r ∈ aggGroupedRows fi gi li cleaned) :
    ∃ fam a b c d, r = [fam, Value.num a, Value.num b, Value.num c, Value.num d]
      ∧ a ≤ b ∧ c ≤ d := by
  unfold aggGroupedRows at h
  rcases List.mem_filterMap.mp h with ⟨fam, -, hf⟩
  unfold aggRowFor at hf
  split at hf
  · rename_i a b c d h1 h2 h3 h4
    refine ⟨fam, a, b, c, d, ?_, qMin_le_qMax h1 h2, qMin_le_qMax h3 h4⟩
    simpa using hf.symm
  · cases hf

theorem filterMap_map_sublist {f : α → Option β} {g : β → α}
    (hfg : ∀ a b, f a = some b → g b = a) :
    ∀ l : List α, ((l.filterMap f).map g).Sublist l
  | [] => by simp
  | x :: xs => by
    rw [List.filterMap_cons]
    rcases hx : f x with - | z
    · exact (filterMap_map_sublist hfg xs).cons x
    · rw [List.map_cons, hfg x z hx]
      exact (filterMap_map_sublist hfg xs).cons₂ x

/-- The family entries heading the grouped rows are pairwise distinct:
at most one emitted tolerance range per distinct item-family value. -/
theorem aggGroupedRows_heads_nodup (fi gi li : Nat)
    (cleaned : List (List Value)) :
    ((aggGroupedRows fi gi li cleaned).map (fun r => cell r 0)).Nodup := by
  unfold aggGroupedRows
  refine List.Nodup.sublist (filterMap_map_sublist ?_ _) (firstSeen_nodup _)
  intro fam r hr
  unfold aggRowFor at hr
  split at hr
  · rename_i a b c d h1 h2 h3 h4
    simp only [Option.some.injEq] at hr
    subst hr
    rfl
  · cases hr

/-! ## The claims -/

/-- C1: on the documented scenario (inventory: two Kraft lots of weight
80 and 200, width 100; requirements of client Acme: Kraft rows with
string weights "75"/"90" and widths "90"/"110"), aggregation yields the
single range Kraft, weight in [75, 90], width in [90, 110], and
matching returns exactly the first inventory row, bounds inclusive,
excluding the second (weight 200 outside the range). -/
theorem claim_C1_end_to_end_scenario :
    group_client_needs_by_item_family reqScenario (.str "Acme") =
      .ok groupedScenario ∧
    filter_stocklot_for_client invScenario groupedScenario =
      some ⟨["Item Family", "Grammage", "Laize"],
            [[.str "Kraft", .num 80, .num 100]]⟩ := by
  constructor
  · decide
  · decide

theorem selected_empty_iff (df : Table) (ci : Nat) (s : String) :
    (selectedRows df ci (.str s)).isEmpty = true ↔
      ∀ r ∈ df.rows, cell r ci ≠ Value.str s := by
  simp [selectedRows, List.isEmpty_iff, List.filter_eq_nil_iff, pyEq_str_iff]

/-- C4: whenever the client, item-family, grammage and laize roles all
resolve on the requirements table, aggregation fails with
NoRequirementsFound exactly when no row's cell in the resolved client
column equals the requested client string (exact, case-sensitive). -/
theorem claim_C4_no_requirements_found (df : Table) (client : String)
    (ccol fcol gcol lcol : String)
    (hc : find_matching_column df.cols clientKeywords = some ccol)
    (hf : find_matching_column df.cols familyKeywords = some fcol)
    (hg : find_matching_column df.cols grammageKeywords = some gcol)
    (hl : find_matching_column df.cols laizeKeywords = some lcol) :
    group_client_needs_by_item_family df (.str client) =
        .error .noNeedsFound ↔
      ∀ r ∈ df.rows, cell r (colIdx df.cols ccol) ≠ Value.str client := by
  simp only [group_client_needs_by_item_family, hc, hf, hg, hl]
  by_cases hsel :
      (selectedRows df (colIdx df.cols ccol) (Value.str client)).isEmpty = true
  · rw [if_pos hsel]
    exact ⟨fun _ => (selected_empty_iff df _ client).mp hsel, fun _ => rfl⟩
  · rw [if_neg hsel]
    constructor
    · intro h; cases h
    · intro hall
      exact absurd ((selected_empty_iff df _ client).mpr hall) hsel

/-- Witness for C4: client Ghost occurs nowhere in the scenario
requirements, so aggregation fails with NoRequirementsFound. -/
theorem claim_C4_no_requirements_found_witness :
    group_client_needs_by_item_family reqScenario (.str "Ghost") =
      .error .noNeedsFound :=
  (claim_C4_no_requirements_found reqScenario "Ghost"
      "Client" "Item Family" "Grammage" "Laize"
      (by decide) (by decide) (by decide) (by decide)).mpr (by decide)

/-- C5: every tolerance row a successful aggregation emits is a family
value followed by weight min, weight max, width min, width max with
min at most max for both attributes, and the emitted family values are
pairwise distinct (at most one range per distinct item family). -/
theorem claim_C5_range_invariants (df : Table) (clientName : Value)
    (g : Table)
    (h : group_client_needs_by_item_family df clientName = .ok g) :
    (∀ r ∈ g.rows, ∃ fam a b c d,
        r = [fam, Value.num a, Value.num b, Value.num c, Value.num d] ∧
        a ≤ b ∧ c ≤ d) ∧
    (g.rows.map (fun r => cell r 0)).Nodup := by
  unfold group_client_needs_by_item_family at h
  split at h
  · split at h
    · cases h
    · simp only [Except.ok.injEq] at h
      subst h
      exact ⟨fun r hr => aggGroupedRows_mem hr,
             aggGroupedRows_heads_nodup _ _ _ _⟩
  · cases h

/-- Witness for C5 at the scenario aggregation. -/
theorem claim_C5_range_invariants_witness :
    (∀ r ∈ groupedScenario.rows, ∃ fam a b c d,
        r = [fam, Value.num a, Value.num b, Value.num c, Value.num d] ∧
        a ≤ b ∧ c ≤ d) ∧
    (groupedScenario.rows.map (fun r => cell r 0)).Nodup :=
  claim_C5_range_invariants reqScenario (.str "Acme") groupedScenario
    (by decide)

/-! ## C2: the priority buckets -/

theorem classify_some_elim {df : Table} {b : Buckets} {pcol : String}
    (hp : find_matching_column df.cols priorityKeywords = some pcol)
    (hcl : classify_needs_by_priority df = some b) :
    b = ⟨⟨df.cols, df.rows.filter (priorityHas (colIdx df.cols pcol) "urgent")⟩,
         ⟨df.cols,
          df.rows.filter (priorityHas (colIdx df.cols pcol) "less urgent")⟩,
         ⟨df.cols,
          df.rows.filter (priorityHas (colIdx df.cols pcol) "last priority")⟩,
         ⟨df.cols, df.rows.filter (fun r =>
           !(priorityHas (colIdx df.cols pcol) "urgent" r ||
             priorityHas (colIdx df.cols pcol) "less urgent" r ||
             priorityHas (colIdx df.cols pcol) "last priority" r))⟩⟩ := by
  simp only [classify_needs_by_priority, hp] at hcl
  split at hcl
  · simpa using hcl.symm
  · cases hcl

theorem priorityHas_str {pi : Nat} {pat : String} {r : List Value} {s : String}
    (hs : cell r pi = .str s) :
    priorityHas pi pat r = isInfixL pat.data (lowerL s) := by
  simp [priorityHas, hs]

/-- C2 counterexample: the row with priority text
"less urgent last priority" contains "less urgent", yet classify places
it into the LastPriority bucket, contradicting the claim that such a
row lands in neither LastPriority nor General. -/
theorem claim_C2_counterexample :
    isInfixL "less urgent".data (lowerL "less urgent last priority") = true ∧
    (classify_needs_by_priority tAmbig).map (fun b => b.lastPriority.rows) =
      some [[Value.str "less urgent last priority"]] := by
  exact ⟨by decide, by decide⟩

/-- C2 (amended): whenever the priority role resolves and classify
succeeds, a row whose lowered priority text contains "less urgent" is
placed into BOTH the Urgent and LessUrgent buckets and never into
General; it is kept out of LastPriority exactly when its text does not
also contain "last priority".  The General bucket is disjoint from the
other three, and Urgent, LessUrgent and LastPriority are not pairwise
disjoint (exhibited on a concrete table). -/
theorem claim_C2_less_urgent_buckets (df : Table) (b : Buckets)
    (pcol : String)
    (hp : find_matching_column df.cols priorityKeywords = some pcol)
    (hcl : classify_needs_by_priority df = some b) :
    (∀ r ∈ df.rows, ∀ s : String,
        cell r (colIdx df.cols pcol) = Value.str s →
        "less urgent".data <:+: lowerL s →
          r ∈ b.urgent.rows ∧ r ∈ b.lessUrgent.rows ∧ r ∉ b.general.rows ∧
          (¬ "last priority".data <:+: lowerL s → r ∉ b.lastPriority.rows)) ∧
    (∀ r ∈ b.general.rows,
        r ∉ b.urgent.rows ∧ r ∉ b.lessUrgent.rows ∧ r ∉ b.lastPriority.rows) ∧
    (∃ b2, classify_needs_by_priority tOverlap = some b2 ∧
        (∃ r, r ∈ b2.urgent.rows ∧ r ∈ b2.lessUrgent.rows) ∧
        (∃ r, r ∈ b2.urgent.rows ∧ r ∈ b2.lastPriority.rows) ∧
        (∃ r, r ∈ b2.lessUrgent.rows ∧ r ∈ b2.lastPriority.rows)) := by
  obtain rfl := classify_some_elim hp hcl
  refine ⟨?_, ?_, ?_⟩
  · intro r hr s hs hlu
    have hU : priorityHas (colIdx df.cols pcol) "urgent" r = true := by
      rw [priorityHas_str hs, isInfixL_iff]
      exact List.IsInfix.trans (by decide) hlu
    have hLU : priorityHas (colIdx df.cols pcol) "less urgent" r = true := by
      rw [priorityHas_str hs, isInfixL_iff]
      exact hlu
    refine ⟨List.mem_filter.mpr ⟨hr, hU⟩, List.mem_filter.mpr ⟨hr, hLU⟩,
            ?_, ?_⟩
    · intro hg
      have hmask := (List.mem_filter.mp hg).2
      simp [hU] at hmask
    · intro hnlp hlp
      have hm := (List.mem_filter.mp hlp).2
      rw [priorityHas_str hs, isInfixL_iff] at hm
      exact hnlp hm
  · intro r hg
    have hmask := (List.mem_filter.mp hg).2
    simp only [Bool.not_eq_eq_eq_not, Bool.not_true, Bool.or_eq_false_iff]
      at hmask
    refine ⟨fun hx => ?_, fun hx => ?_, fun hx => ?_⟩
    · rw [(List.mem_filter.mp hx).2] at hmask
      simp at hmask
    · rw [(List.mem_filter.mp hx).2] at hmask
      simp at hmask
    · rw [(List.mem_filter.mp hx).2] at hmask
      simp at hmask
  · refine ⟨⟨⟨["Priority"],
        [[.str "less urgent"], [.str "urgent last priority"],
         [.str "less urgent last priority"]]⟩,
       ⟨["Priority"],
        [[.str "less urgent"], [.str "less urgent last priority"]]⟩,
       ⟨["Priority"],
        [[.str "urgent last priority"], [.str "less urgent last priority"]]⟩,
       ⟨["Priority"], []⟩⟩, by decide,
      ⟨[.str "less urgent"], by decide, by decide⟩,
      ⟨[.str "urgent last priority"], by decide, by decide⟩,
      ⟨[.str "less urgent last priority"], by decide, by decide⟩⟩

/-- Witness for C2 at the documented "less urgent - reorder" row. -/
theorem claim_C2_less_urgent_buckets_witness :
    ∃ b : Buckets, classify_needs_by_priority tReorder = some b ∧
      [Value.str "less urgent - reorder"] ∈ b.urgent.rows ∧
      [Value.str "less urgent - reorder"] ∈ b.lessUrgent.rows ∧
      [Value.str "less urgent - reorder"] ∉ b.general.rows ∧
      [Value.str "less urgent - reorder"] ∉ b.lastPriority.rows := by
  have h := (claim_C2_less_urgent_buckets tReorder
      ⟨⟨["Priority"], [[Value.str "less urgent - reorder"]]⟩,
       ⟨["Priority"], [[Value.str "less urgent - reorder"]]⟩,
       ⟨["Priority"], []⟩, ⟨["Priority"], []⟩⟩ "Priority"
      (by decide) (by decide)).1
      [Value.str "less urgent - reorder"] (by decide)
      "less urgent - reorder" (by decide) (by decide)
  exact ⟨_, by decide, h.1, h.2.1, h.2.2.1, h.2.2.2 (by decide)⟩

/-! ## C6, C7, C10: the Range Matcher -/

theorem keepRow_some_true_family {fi gi li : Nat}
    {fam minG maxG minL maxL : Value} {r : List Value}
    (h : keepRow fi gi li fam minG maxG minL maxL r = some true) :
    pyEq (cell r fi) fam = true := by
  unfold keepRow at h
  split at h
  · simp only [Option.some.injEq, Bool.and_eq_true] at h
    exact h.1.1
  · cases h

theorem colIdx_head {gCols : List String} {famCol : String}
    (hhead : gCols.head? = some famCol) : colIdx gCols famCol = 0 := by
  cases gCols with
  | nil => cases hhead
  | cons a t =>
    obtain rfl : a = famCol := by simpa using hhead
    simp [colIdx, List.findIdx_cons]

theorem selectForRow_some_family {dfSt : Table} {fi gi li : Nat}
    {gCols : List String} {nrow : List Value} {part : List (List Value)}
    (h : selectForRow dfSt fi gi li gCols nrow = some part) :
    ∀ r ∈ part, pyEq (cell r fi) (cell nrow 0) = true := by
  unfold selectForRow at h
  split at h
  · rename_i famCol gminC gmaxC lminC lmaxC hhead h1 h2 h3 h4
    intro r hr
    have hk := pyFilter_mem h r hr
    rw [colIdx_head hhead] at hk
    exact keepRow_some_true_family hk
  · cases h

theorem selectForRow_some_sublist {dfSt : Table} {fi gi li : Nat}
    {gCols : List String} {nrow : List Value} {part : List (List Value)}
    (h : selectForRow dfSt fi gi li gCols nrow = some part) :
    part.Sublist dfSt.rows := by
  unfold selectForRow at h
  split at h
  · exact pyFilter_sublist h
  · cases h

theorem selectForRow_disjoint {dfSt : Table} {fi gi li : Nat}
    {gCols : List String} {n1 n2 : List Value}
    {p1 p2 : List (List Value)}
    (h1 : selectForRow dfSt fi gi li gCols n1 = some p1)
    (h2 : selectForRow dfSt fi gi li gCols n2 = some p2)
    (hne : cell n1 0 ≠ cell n2 0) :
    ∀ r ∈ p1, r ∉ p2 := by
  intro r hr1 hr2
  exact hne (pyEq_same (cell r fi) _ _
    (selectForRow_some_family h1 r hr1) (selectForRow_some_family h2 r hr2))

theorem filter_stocklot_some_elim {dfSt gn res : Table}
    (h : filter_stocklot_for_client dfSt gn = some res) :
    ∃ fcol gcol lcol parts,
      find_matching_column dfSt.cols familyKeywords = some fcol ∧
      find_matching_column dfSt.cols grammageKeywords = some gcol ∧
      find_matching_column dfSt.cols laizeKeywords = some lcol ∧
      gn.rows ≠ [] ∧
      mapO (selectForRow dfSt (colIdx dfSt.cols fcol)
          (colIdx dfSt.cols gcol) (colIdx dfSt.cols lcol) gn.cols)
        gn.rows = some parts ∧
      res = ⟨dfSt.cols, parts.flatten⟩ := by
  unfold filter_stocklot_for_client at h
  split at h
  · rename_i fcol gcol lcol hf hg hl
    split at h
    · cases h
    · rename_i hne
      rcases hm : mapO (selectForRow dfSt (colIdx dfSt.cols fcol)
          (colIdx dfSt.cols gcol) (colIdx dfSt.cols lcol) gn.cols)
          gn.rows with - | parts
      · rw [hm] at h; cases h
      · rw [hm] at h
        simp only [Option.map_some', Option.some.injEq] at h
        exact ⟨fcol, gcol, lcol, parts, hf, hg, hl,
               fun hemp => hne (by simp [hemp]), hm, h.symm⟩
  · cases h

/-- C6: when match succeeds and the tolerance rows carry pairwise
distinct family values (their first entries), the result is exactly the
concatenation, in tolerance-row order, of the per-range selections,
each selection an order-preserving sublist of the inventory rows, and
the selections are pairwise disjoint: no inventory row value satisfies
two ranges with distinct families. -/
theorem claim_C6_partition_property (dfSt gn res : Table)
    (hres : filter_stocklot_for_client dfSt gn = some res)
    (hfam : List.Pairwise (fun n1 n2 => cell n1 0 ≠ cell n2 0) gn.rows) :
    ∃ fcol gcol lcol parts,
      find_matching_column dfSt.cols familyKeywords = some fcol ∧
      find_matching_column dfSt.cols grammageKeywords = some gcol ∧
      find_matching_column dfSt.cols laizeKeywords = some lcol ∧
      mapO (selectForRow dfSt (colIdx dfSt.cols fcol)
          (colIdx dfSt.cols gcol) (colIdx dfSt.cols lcol) gn.cols)
        gn.rows = some parts ∧
      res.rows = parts.flatten ∧
      (∀ p ∈ parts, p.Sublist dfSt.rows) ∧
      List.Pairwise (fun p q => ∀ r ∈ p, r ∉ q) parts := by
  obtain ⟨fcol, gcol, lcol, parts, h1, h2, h3, -, hm, rfl⟩ :=
    filter_stocklot_some_elim hres
  refine ⟨fcol, gcol, lcol, parts, h1, h2, h3, hm, rfl, ?_, ?_⟩
  · intro p hp
    rcases mapO_mem hm p hp with ⟨nrow, -, hsel⟩
    exact selectForRow_some_sublist hsel
  · exact mapO_pairwise hm hfam
      (fun a b pa pb hab ha hb => selectForRow_disjoint ha hb hab)

/-- Witness for C6 at the scenario match. -/
theorem claim_C6_partition_property_witness :
    ∃ fcol gcol lcol parts,
      find_matching_column invScenario.cols familyKeywords = some fcol ∧
      find_matching_column invScenario.cols grammageKeywords = some gcol ∧
      find_matching_column invScenario.cols laizeKeywords = some lcol ∧
      mapO (selectForRow invScenario (colIdx invScenario.cols fcol)
          (colIdx invScenario.cols gcol) (colIdx invScenario.cols lcol)
          groupedScenario.cols) groupedScenario.rows = some parts ∧
      (⟨["Item Family", "Grammage", "Laize"],
        [[Value.str "Kraft", Value.num 80, Value.num 100]]⟩ : Table).rows =
        parts.flatten ∧
      (∀ p ∈ parts, p.Sublist invScenario.rows) ∧
      List.Pairwise (fun p q => ∀ r ∈ p, r ∉ q) parts :=
  claim_C6_partition_property invScenario groupedScenario
    ⟨["Item Family", "Grammage", "Laize"],
     [[Value.str "Kraft", Value.num 80, Value.num 100]]⟩
    (by decide) (by simp [groupedScenario])

/-- C7 counterexample: on the empty sequence of tolerance ranges the
matcher returns `none` — the same value as every failure path (the
caller cannot tell it from a failure) — not an empty result table. -/
theorem claim_C7_counterexample :
    filter_stocklot_for_client invScenario gnEmpty = none := by decide

/-- C7 (amended): with the three inventory roles resolvable, the
matcher applied to ZERO tolerance rows returns the `None` failure
sentinel of line 88 (not an empty table); with at least one tolerance
row, when every per-range selection succeeds and selects nothing, the
result is an empty table — a success, not a failure. -/
theorem claim_C7_empty_results (dfSt gn : Table) (fcol gcol lcol : String)
    (hf : find_matching_column dfSt.cols familyKeywords = some fcol)
    (hg : find_matching_column dfSt.cols grammageKeywords = some gcol)
    (hl : find_matching_column dfSt.cols laizeKeywords = some lcol) :
    (gn.rows = [] → filter_stocklot_for_client dfSt gn = none) ∧
    (∀ parts, gn.rows ≠ [] →
      mapO (selectForRow dfSt (colIdx dfSt.cols fcol)
          (colIdx dfSt.cols gcol) (colIdx dfSt.cols lcol) gn.cols)
        gn.rows = some parts →
      parts.flatten = [] →
      filter_stocklot_for_client dfSt gn = some ⟨dfSt.cols, []⟩) := by
  constructor
  · intro hemp
    simp only [filter_stocklot_for_client, hf, hg, hl, hemp]
    rfl
  · intro parts hne hm hflat
    simp only [filter_stocklot_for_client, hf, hg, hl]
    rw [if_neg (by simpa [List.isEmpty_iff] using hne), hm]
    simp [hflat]

/-- Witness for C7: the scenario inventory against an empty tolerance
table gives `none`; against the non-matching Zed range it gives the
empty table. -/
theorem claim_C7_empty_results_witness :
    filter_stocklot_for_client invScenario gnEmpty = none ∧
    filter_stocklot_for_client invScenario gnNoMatch =
      some ⟨["Item Family", "Grammage", "Laize"], []⟩ :=
  ⟨(claim_C7_empty_results invScenario gnEmpty
      "Item Family" "Grammage" "Laize" (by decide) (by decide)
      (by decide)).1 rfl,
   (claim_C7_empty_results invScenario gnNoMatch
      "Item Family" "Grammage" "Laize" (by decide) (by decide)
      (by decide)).2 [[]] (by decide) (by decide) rfl⟩

theorem betweenV_str_num_none (s : String) (a : ℚ) (hi : Value) :
    betweenV (.str s) (.num a) hi = none := rfl

theorem betweenV_isSome_of_not_str {v : Value} (a b : ℚ)
    (hv : v.isStr = false) :
    (betweenV v (.num a) (.num b)).isSome = true := by
  cases v with
  | str s => cases hv
  | num q => rfl
  | missing => rfl

/-- A text cell in the grammage or laize column of the stocklot makes
the whole row mask raise (`TypeError` against numeric bounds). -/
theorem keepRow_none_of_str {fi gi li : Nat} {fam minG maxG minL maxL : Value}
    {ga gb la lb : ℚ} (e1 : minG = .num ga) (e2 : maxG = .num gb)
    (e3 : minL = .num la) (e4 : maxL = .num lb) {r : List Value}
    (hstr : (cell r gi).isStr = true ∨ (cell r li).isStr = true) :
    keepRow fi gi li fam minG maxG minL maxL r = none := by
  subst e1; subst e2; subst e3; subst e4
  unfold keepRow
  by_cases hg : (cell r gi).isStr = true
  · rcases hsv : cell r gi with s | q | _
    · rw [betweenV_str_num_none]
    · rw [hsv] at hg; simp [Value.isStr] at hg
    · rw [hsv] at hg; simp [Value.isStr] at hg
  · have hl2 : (cell r li).isStr = true := hstr.resolve_left hg
    rcases hsv : cell r li with s | q | _
    · rcases hx : betweenV (cell r gi) (.num ga) (.num gb) with - | bg
      · rfl
      · rw [betweenV_str_num_none]
    · rw [hsv] at hl2; simp [Value.isStr] at hl2
    · rw [hsv] at hl2; simp [Value.isStr] at hl2

theorem selectForRow_none_of_bad {dfSt : Table} {fi gi li : Nat}
    {gCols : List String} {nrow : List Value}
    {famC gminC gmaxC lminC lmaxC : String}
    (hhead : gCols.head? = some famC)
    (h1 : findBoundCol gCols "grammage min" = some gminC)
    (h2 : findBoundCol gCols "grammage max" = some gmaxC)
    (h3 : findBoundCol gCols "laize min" = some lminC)
    (h4 : findBoundCol gCols "laize max" = some lmaxC)
    {ga gb la lb : ℚ}
    (hv1 : cell nrow (colIdx gCols gminC) = .num ga)
    (hv2 : cell nrow (colIdx gCols gmaxC) = .num gb)
    (hv3 : cell nrow (colIdx gCols lminC) = .num la)
    (hv4 : cell nrow (colIdx gCols lmaxC) = .num lb)
    {r : List Value} (hr : r ∈ dfSt.rows)
    (hstr : (cell r gi).isStr = true ∨ (cell r li).isStr = true) :
    selectForRow dfSt fi gi li gCols nrow = none := by
  unfold selectForRow
  rw [hhead, h1, h2, h3, h4]
  exact pyFilter_none_of_mem hr
    (keepRow_none_of_str hv1 hv2 hv3 hv4 hstr)

/-- C10: inventory weight/width cells are never coerced: with the
three inventory roles resolved, a tolerance table whose lookups resolve
and which has at least one range with numeric bounds, a single textual
cell in the resolved weight or width column of ANY inventory row makes
the whole match fail (return the error value), for all ranges — the row
is not silently skipped. -/
theorem claim_C10_inventory_not_coerced (dfSt gn : Table)
    (fcol gcol lcol famC gminC gmaxC lminC lmaxC : String)
    (hf : find_matching_column dfSt.cols familyKeywords = some fcol)
    (hg : find_matching_column dfSt.cols grammageKeywords = some gcol)
    (hl : find_matching_column dfSt.cols laizeKeywords = some lcol)
    (hhead : gn.cols.head? = some famC)
    (h1 : findBoundCol gn.cols "grammage min" = some gminC)
    (h2 : findBoundCol gn.cols "grammage max" = some gmaxC)
    (h3 : findBoundCol gn.cols "laize min" = some lminC)
    (h4 : findBoundCol gn.cols "laize max" = some lmaxC)
    (nrow : List Value) (hnrow : nrow ∈ gn.rows) (ga gb la lb : ℚ)
    (hv1 : cell nrow (colIdx gn.cols gminC) = .num ga)
    (hv2 : cell nrow (colIdx gn.cols gmaxC) = .num gb)
    (hv3 : cell nrow (colIdx gn.cols lminC) = .num la)
    (hv4 : cell nrow (colIdx gn.cols lmaxC) = .num lb)
    (r : List Value) (hr : r ∈ dfSt.rows)
    (hstr : (cell r (colIdx dfSt.cols gcol)).isStr = true ∨
            (cell r (colIdx dfSt.cols lcol)).isStr = true) :
    filter_stocklot_for_client dfSt gn = none := by
  simp only [filter_stocklot_for_client, hf, hg, hl]
  rw [if_neg (by simpa [List.isEmpty_iff] using List.ne_nil_of_mem hnrow)]
  rw [mapO_none_of_mem hnrow
    (selectForRow_none_of_bad hhead h1 h2 h3 h4 hv1 hv2 hv3 hv4 hr hstr)]
  rfl

/-- Witness for C10: the textual weight "N/A" of the first lot of
`invBad` makes the scenario match fail outright, even though the second
lot would match. -/
theorem claim_C10_inventory_not_coerced_witness :
    filter_stocklot_for_client invBad groupedScenario = none :=
  claim_C10_inventory_not_coerced invBad groupedScenario
    "Item Family" "Grammage" "Laize" "Item Family"
    "Grammage min" "Grammage max" "Laize min" "Laize max"
    (by decide) (by decide) (by decide) (by decide) (by decide) (by decide)
    (by decide) (by decide)
    [Value.str "Kraft", Value.num 75, Value.num 90,
     Value.num 90, Value.num 110]
    (by decide) 75 90 90 110 (by decide) (by decide) (by decide) (by decide)
    [Value.str "Other", Value.str "N/A", Value.num 100]
    (by decide) (Or.inl (by decide))

/-! ## C8: the Auto Filter loop -/

theorem processClient_some_elim {dfSt dfNeeds : Table} {label : String}
    {c : Value} {e : Value × String × Table}
    (h : processClient dfSt dfNeeds label c = some e) :
    e.1 = c ∧ e.2.1 = label ∧
      singleClientMatch dfSt dfNeeds c = some e.2.2 ∧ e.2.2.rows ≠ [] := by
  unfold processClient at h
  split at h
  · cases h
  · rename_i t hmatch
    split at h
    · cases h
    · rename_i hemp
      obtain rfl : (c, label, t) = e := by simpa using h
      exact ⟨rfl, rfl, hmatch, by simpa [List.isEmpty_iff] using hemp⟩

theorem autoFilterOutputs_some_elim {dfSt dfNeeds : Table}
    {out : List (Value × String × Table)}
    (h : autoFilterOutputs dfSt dfNeeds = some out) :
    ∃ buckets ccol, classify_needs_by_priority dfNeeds = some buckets ∧
      find_matching_column dfNeeds.cols clientKeywords = some ccol ∧
      out = ((bucketList buckets).map (fun lb =>
        (uniqueClients lb.2 (colIdx dfNeeds.cols ccol)).filterMap
          (processClient dfSt dfNeeds lb.1))).flatten := by
  unfold autoFilterOutputs at h
  split at h
  · cases h
  · rename_i buckets hcl
    split at h
    · cases h
    · rename_i ccol hcc
      exact ⟨buckets, ccol, hcl, hcc, by simpa using h.symm⟩

/-- Entries produced for one bucket: first component is the client the
loop iterated on, second is the bucket label. -/
theorem bucketEntries_facts {dfSt dfNeeds : Table} {label : String}
    {clients : List Value} {e : Value × String × Table}
    (he : e ∈ clients.filterMap (processClient dfSt dfNeeds label)) :
    e.2.1 = label ∧ singleClientMatch dfSt dfNeeds e.1 = some e.2.2 ∧
      e.2.2.rows ≠ [] := by
  rcases List.mem_filterMap.mp he with ⟨c, -, hc⟩
  obtain ⟨h1, h2, h3, h4⟩ := processClient_some_elim hc
  subst h1
  exact ⟨h2, h3, h4⟩

/-- C8: every entry the all-clients-by-priority loop outputs carries
exactly the single-client match of its client computed over the FULL
requirements table, so an ambiguous client processed in several buckets
gets identical row content in each (only the bucket label differs);
entries sharing a client have equal tables and pairwise distinct bucket
labels (one output per bucket the client belongs to). -/
theorem claim_C8_bucket_independent_content (dfSt dfNeeds : Table)
    (out : List (Value × String × Table))
    (h : autoFilterOutputs dfSt dfNeeds = some out) :
    (∀ e ∈ out, singleClientMatch dfSt dfNeeds e.1 = some e.2.2 ∧
        e.2.2.rows ≠ []) ∧
    (∀ e1 ∈ out, ∀ e2 ∈ out, e1.1 = e2.1 → e1.2.2 = e2.2.2) ∧
    List.Pairwise (fun e1 e2 => e1.1 = e2.1 → e1.2.1 ≠ e2.2.1) out := by
  obtain ⟨buckets, ccol, -, -, rfl⟩ := autoFilterOutputs_some_elim h
  have hmem : ∀ e ∈ ((bucketList buckets).map (fun lb =>
      (uniqueClients lb.2 (colIdx dfNeeds.cols ccol)).filterMap
        (processClient dfSt dfNeeds lb.1))).flatten,
      singleClientMatch dfSt dfNeeds e.1 = some e.2.2 ∧ e.2.2.rows ≠ [] := by
    intro e he
    rcases List.mem_flatten.mp he with ⟨part, hpart, hep⟩
    rcases List.mem_map.mp hpart with ⟨lb, -, rfl⟩
    exact (bucketEntries_facts hep).2
  refine ⟨hmem, ?_, ?_⟩
  · intro e1 h1 e2 h2 hc
    have q1 := (hmem e1 h1).1
    have q2 := (hmem e2 h2).1
    rw [hc] at q1
    rw [q1] at q2
    exact Option.some.inj q2
  · rw [List.pairwise_flatten]
    constructor
    · intro part hpart
      rcases List.mem_map.mp hpart with ⟨lb, -, rfl⟩
      have hnd : List.Pairwise (fun a b : Value => a ≠ b)
          (uniqueClients lb.2 (colIdx dfNeeds.cols ccol)) :=
        firstSeen_nodup _
      refine filterMap_pairwise hnd ?_
      intro a b pa pb hab ha hb
      obtain ⟨ea, -, -, -⟩ := processClient_some_elim ha
      obtain ⟨eb, -, -, -⟩ := processClient_some_elim hb
      intro hcc
      exact absurd (show a = b by rw [← ea, hcc, eb]) hab
    · have hlabel : ∀ (label : String) (bdf : Table) e,
          e ∈ (uniqueClients bdf (colIdx dfNeeds.cols ccol)).filterMap
            (processClient dfSt dfNeeds label) → e.2.1 = label := by
        intro label bdf e he
        exact (bucketEntries_facts he).1
      simp only [bucketList, List.map_cons, List.map_nil]
      refine List.Pairwise.cons ?_ (List.Pairwise.cons ?_
        (List.Pairwise.cons ?_ (List.Pairwise.cons ?_ List.Pairwise.nil)))
        <;> intro part hpart <;>
        simp only [List.mem_cons, List.not_mem_nil, or_false] at hpart
      · rcases hpart with rfl | rfl | rfl <;>
          intro a ha b hb hcc <;>
          rw [hlabel _ _ a ha, hlabel _ _ b hb] <;> decide
      · rcases hpart with rfl | rfl <;>
          intro a ha b hb hcc <;>
          rw [hlabel _ _ a ha, hlabel _ _ b hb] <;> decide
      · obtain rfl := hpart
        intro a ha b hb hcc
        rw [hlabel _ _ a ha, hlabel _ _ b hb]
        decide

/-- Witness for C8: client Acme of `reqPrio` is classified Urgent (its
"urgent" row) and Less Urgent (its "less urgent" row, which also
contains "urgent"); the batch loop emits one entry per bucket with
identical row content. -/
theorem claim_C8_bucket_independent_content_witness :
    (∀ e ∈ [((Value.str "Acme"), "Urgent",
          (⟨["Item Family", "Grammage", "Laize"],
            [[Value.str "Kraft", Value.num 80, Value.num 100]]⟩ : Table)),
        ((Value.str "Acme"), "Less Urgent",
          (⟨["Item Family", "Grammage", "Laize"],
            [[Value.str "Kraft", Value.num 80, Value.num 100]]⟩ : Table))],
        singleClientMatch invScenario reqPrio e.1 = some e.2.2 ∧
          e.2.2.rows ≠ []) ∧
    (∀ e1 ∈ [((Value.str "Acme"), "Urgent",
          (⟨["Item Family", "Grammage", "Laize"],
            [[Value.str "Kraft", Value.num 80, Value.num 100]]⟩ : Table)),
        ((Value.str "Acme"), "Less Urgent",
          (⟨["Item Family", "Grammage", "Laize"],
            [[Value.str "Kraft", Value.num 80, Value.num 100]]⟩ : Table))],
      ∀ e2 ∈ [((Value.str "Acme"), "Urgent",
          (⟨["Item Family", "Grammage", "Laize"],
            [[Value.str "Kraft", Value.num 80, Value.num 100]]⟩ : Table)),
        ((Value.str "Acme"), "Less Urgent",
          (⟨["Item Family", "Grammage", "Laize"],
            [[Value.str "Kraft", Value.num 80, Value.num 100]]⟩ : Table))],
        e1.1 = e2.1 → e1.2.2 = e2.2.2) ∧
    List.Pairwise (fun e1 e2 => e1.1 = e2.1 → e1.2.1 ≠ e2.2.1)
      [((Value.str "Acme"), "Urgent",
          (⟨["Item Family", "Grammage", "Laize"],
            [[Value.str "Kraft", Value.num 80, Value.num 100]]⟩ : Table)),
        ((Value.str "Acme"), "Less Urgent",
          (⟨["Item Family", "Grammage", "Laize"],
            [[Value.str "Kraft", Value.num 80, Value.num 100]]⟩ : Table))] :=
  claim_C8_bucket_independent_content invScenario reqPrio _ (by decide)

/-! ## C9: the caller's tables are never mutated -/

theorem set_append_len (l : List α) (t x : α) :
    (l ++ [t]).set l.length x = l ++ [x] := by
  simp [List.set_append]

theorem getD_append_lt (l l2 : List Table) (r : Nat)
    (hr : r < l.length) :
    (l ++ l2).getD r emptyTable = l.getD r emptyTable :=
  List.getD_append l l2 emptyTable r hr

/-- C9: none of the three core operations changes any DataFrame the
caller already holds: after aggregation (which copies the selection and
coerces in place only on the copy), after matching, and after
classification, every previously allocated reference still
dereferences to the same table. -/
theorem claim_C9_no_caller_mutation (s : Store) (dfRef stRef gnRef : Nat)
    (clientName : Value) (r : Nat) (hr : r < s.tables.length) :
    readT (group_client_needs_st s dfRef clientName).1 r = readT s r ∧
    readT (filter_stocklot_for_client_st s stRef gnRef).1 r = readT s r ∧
    readT (classify_needs_by_priority_st s dfRef).1 r = readT s r := by
  refine ⟨?_, ?_, ?_⟩
  · simp only [group_client_needs_st]
    split
    · split
      · rfl
      · simp only [allocT, writeT, readT]
        rw [set_append_len, set_append_len, List.append_assoc]
        exact getD_append_lt _ _ _ hr
    · rfl
  · simp only [filter_stocklot_for_client_st]
    split
    · rfl
    · simp only [allocT, readT]
      exact getD_append_lt _ _ _ hr
  · simp only [classify_needs_by_priority_st]
    split
    · rfl
    · simp only [allocT, readT]
      rw [List.append_assoc, List.append_assoc, List.append_assoc]
      exact getD_append_lt _ _ _ hr

/-- Witness for C9 on the scenario store (inventory at reference 0,
requirements at reference 1): reference 0 is unchanged by all three
operations. -/
theorem claim_C9_no_caller_mutation_witness :
    readT (group_client_needs_st storeScenario 1 (.str "Acme")).1 0 =
      readT storeScenario 0 ∧
    readT (filter_stocklot_for_client_st storeScenario 0 1).1 0 =
      readT storeScenario 0 ∧
    readT (classify_needs_by_priority_st storeScenario 1).1 0 =
      readT storeScenario 0 :=
  claim_C9_no_caller_mutation storeScenario 1 0 1 (.str "Acme") 0 (by decide)
